import Mathlib

/-!
Verification of the `react-smooth-carousel` marquee component
(`src/src/components/Marquee.tsx`, two near-duplicate variants: the base
variant with a dark-mode gradient override, and the draggable variant).

The embedding below translates the component's pure computations into Lean:
pixel measurements and speeds are exact rationals (`ℚ`); JavaScript numbers
that may be `NaN` or infinite are modelled by `JSNum`; fallible operations
(the `Array` constructor, the computed-style read) return `Option` / an
explicit `threw` constructor.  Float rounding is not modelled: all
arithmetic is exact.
-/

/-- Scroll direction, `direction` prop of both variants
(`"left" | "right" | "up" | "down"`). -/
inductive Direction where
  | left
  | right
  | up
  | down
deriving DecidableEq

/-- A JavaScript number: `NaN`, `Infinity`, `-Infinity`, or a finite value
(modelled exactly as a rational). -/
inductive JSNum where
  | nan : JSNum
  | posInf : JSNum
  | negInf : JSNum
  | finite : ℚ → JSNum
deriving DecidableEq

/-- `Number.isFinite` on a `JSNum`. -/
def JSNum.isFinite : JSNum → Bool
  | .finite _ => true
  | _ => false

/-- The JavaScript comparison `n >= 0` (`NaN >= 0` is `false`,
`Infinity >= 0` is `true`, `-Infinity >= 0` is `false`). -/
def JSNum.geZero : JSNum → Bool
  | .nan => false
  | .posInf => true
  | .negInf => false
  | .finite q => decide (0 ≤ q)

/-- Result of `getBoundingClientRect()`: the measured width and height of an
element, in pixels.  Both are non-negative in the DOM. -/
structure Rect where
  width : ℚ
  height : ℚ

/-- The three state values written by `calculateWidth`
(`setMultiplier` / `setContainerWidth` / `setMarqueeWidth`). -/
structure WidthState where
  multiplier : ℤ
  containerWidth : ℚ
  marqueeWidth : ℚ

/-- The multiplier stored by `calculateWidth` (identical in both variants):

`if (autoFill && containerWidth && marqueeWidth) setMultiplier(marqueeWidth <
containerWidth ? Math.ceil(containerWidth / marqueeWidth) : 1); else
setMultiplier(1)`.

JavaScript truthiness of a finite measurement is `≠ 0`. -/
def marqueeMultiplier (autoFill : Bool) (containerWidth marqueeWidth : ℚ) : ℤ :=
  if autoFill = true ∧ containerWidth ≠ 0 ∧ marqueeWidth ≠ 0 then
    (if marqueeWidth < containerWidth then ⌈containerWidth / marqueeWidth⌉ else 1)
  else 1

/-- `calculateWidth` (identical in both variants): reads both bounding
rectangles, swaps width for height when the direction is vertical, and stores
the container extent, the content (marquee) extent and the multiplier. -/
def calculateWidth (autoFill : Bool) (direction : Direction)
    (containerRect marqueeRect : Rect) : WidthState :=
  let containerWidth :=
    if direction = Direction.up ∨ direction = Direction.down then containerRect.height
    else containerRect.width
  let marqueeWidth :=
    if direction = Direction.up ∨ direction = Direction.down then marqueeRect.height
    else marqueeRect.width
  { multiplier := marqueeMultiplier autoFill containerWidth marqueeWidth
    containerWidth := containerWidth
    marqueeWidth := marqueeWidth }

/-- The `duration` memo (identical in both variants):

`if (autoFill) return (marqueeWidth * multiplier) / speed; return marqueeWidth
< containerWidth ? containerWidth / speed : marqueeWidth / speed`. -/
def duration (autoFill : Bool) (containerWidth marqueeWidth : ℚ)
    (multiplier : ℤ) (speed : ℚ) : ℚ :=
  if autoFill then (marqueeWidth * (multiplier : ℚ)) / speed
  else if marqueeWidth < containerWidth then containerWidth / speed
  else marqueeWidth / speed

/-- The `--play` entry of `marqueeStyle` (identical in both variants):
`play ? "running" : "paused"`. -/
def playValue (play : Bool) : String :=
  if play then "running" else "paused"

/-- The `--pause-on-hover` entry of `containerStyle` (identical in both
variants): `!play || pauseOnHover ? "paused" : "running"`. -/
def pauseOnHoverValue (play pauseOnHover : Bool) : String :=
  if !play || pauseOnHover then "paused" else "running"

/-- The `--pause-on-click` entry of `containerStyle` in the base variant:
`!play || (pauseOnHover && !pauseOnClick) || pauseOnClick ? "paused" :
"running"`. -/
def pauseOnClickValueV1 (play pauseOnHover pauseOnClick : Bool) : String :=
  if !play || (pauseOnHover && !pauseOnClick) || pauseOnClick then "paused" else "running"

/-- The `--pause-on-click` entry of `containerStyle` in the draggable variant:
the base-variant condition with `|| draggable` appended. -/
def pauseOnClickValueV2 (play pauseOnHover pauseOnClick draggable : Bool) : String :=
  if !play || (pauseOnHover && !pauseOnClick) || pauseOnClick || draggable then "paused"
  else "running"

/-- ECMAScript `Array(len)` called with a single numeric argument: it yields
an array of length `len` when `len` equals its own `ToUint32` image (a
non-negative integer below `2 ^ 32`), and throws a `RangeError` otherwise
(`none`). -/
def arrayLength (len : JSNum) : Option ℕ :=
  match len with
  | .finite q =>
      if q.den = 1 ∧ 0 ≤ q.num ∧ q.num < 2 ^ 32 then some q.num.toNat else none
  | _ => none

/-- `multiplyChildren` (identical in both variants): the number of copies of
the children rendered by
`[...Array(Number.isFinite(multiplier) && multiplier >= 0 ? multiplier :
0)].map(...)`; `some n` means `n` copies are rendered, `none` means the
`Array` constructor throws. -/
def multiplyChildren (multiplier : JSNum) : Option ℕ :=
  arrayLength (if multiplier.isFinite && multiplier.geZero then multiplier
               else JSNum.finite 0)

/-- The draggable variant's drag state: `isDragging` / `dragStartPos` /
`animationPosition` React state plus the `currentDragOffsetRef` ref. -/
structure DragState where
  isDragging : Bool
  dragStartPos : ℚ
  animationPosition : ℚ
  currentDragOffset : ℚ
deriving DecidableEq

/-- The pointer coordinates carried by a mouse or touch event
(`clientX` / `clientY`, for touch events those of `touches[0]`). -/
structure PointerEventPos where
  clientX : ℚ
  clientY : ℚ
deriving DecidableEq

/-- The coordinate selection used by `handleDragStart` / `handleDragMove`:
`["left", "right"].includes(direction) ? clientX : clientY`. -/
def clientPos (direction : Direction) (e : PointerEventPos) : ℚ :=
  if direction = Direction.left ∨ direction = Direction.right then e.clientX
  else e.clientY

/-- `handleDragStart`: when `draggable` is on, sets `isDragging`, captures the
pointer coordinate as `dragStartPos`, stores the automatic animation's current
translation (read by `getCurrentTranslation`) as `animationPosition`, and
zeroes the drag offset. -/
def handleDragStart (draggable : Bool) (direction : Direction)
    (currentTranslation : ℚ) (s : DragState) (e : PointerEventPos) : DragState :=
  if draggable = false then s
  else
    { isDragging := true
      dragStartPos := clientPos direction e
      animationPosition := currentTranslation
      currentDragOffset := 0 }

/-- `handleDragMove`: while dragging, stores
`newOffset = clientPos - dragStartPos` in `currentDragOffsetRef`, negating it
when the direction is `up` (the track is rotated −90°). -/
def handleDragMove (direction : Direction) (s : DragState)
    (e : PointerEventPos) : DragState :=
  if s.isDragging = false then s
  else
    let c := clientPos direction e
    let newOffset := c - s.dragStartPos
    let newOffset := if direction = Direction.up then -newOffset else newOffset
    { s with currentDragOffset := newOffset }

/-- One frame of the `animateDrag` loop: both redundant marquee tracks receive
`translateX(initialPosition + currentDragOffsetRef.current)`, where
`initialPosition` is the `animationPosition` captured when the dragging effect
started.  The pair holds the translation applied to the first and second
track. -/
def animateDragFrame (initialPosition : ℚ) (s : DragState) : ℚ × ℚ :=
  (initialPosition + s.currentDragOffset, initialPosition + s.currentDragOffset)

/-- The base variant's `darkModeGradient` prop value (when non-null):
`{ enabled, color, gradientWidth? }`. -/
structure DarkModeGradient where
  enabled : Bool
  color : String
  gradientWidth : Option ℚ

/-- A CSS width value: the `gradientWidth` prop is `number | string`. -/
inductive CSSWidth where
  | num : ℚ → CSSWidth
  | str : String → CSSWidth
deriving DecidableEq

/-- The base variant's `gradientStyle` memo, up to CSS string formatting: the
pair `(finalColor, finalWidth)` with
`darkModeEnabled = darkModeGradient?.enabled ?? false`,
`finalColor = darkModeEnabled ? darkModeGradient?.color : gradientColor` and
`finalWidth = darkModeEnabled ? darkModeGradient?.gradientWidth ??
gradientWidth : gradientWidth`.  `none` as a color models `undefined`. -/
def gradientStyle (gradientColor : String) (gradientWidth : CSSWidth)
    (darkModeGradient : Option DarkModeGradient) : Option String × CSSWidth :=
  let darkModeEnabled := (darkModeGradient.map (fun g => g.enabled)).getD false
  let finalColor :=
    if darkModeEnabled then darkModeGradient.map (fun g => g.color)
    else some gradientColor
  let finalWidth :=
    if darkModeEnabled then
      ((darkModeGradient.bind (fun g => g.gradientWidth)).map CSSWidth.num).getD
        gradientWidth
    else gradientWidth
  (finalColor, finalWidth)

/-- C1: with `autoFill` off the stored multiplier is `1`; with `autoFill` on
it is `⌈containerExtent / contentExtent⌉` when both measured extents are
positive and the content extent is smaller than the container extent, and `1`
otherwise (an extent of zero, or content already at least as large as the
container); in all cases the stored multiplier is at least `1`.  Measured
extents from `getBoundingClientRect` are non-negative. -/
theorem marqueeMultiplier_spec (autoFill : Bool) (cw mw : ℚ)
    (_hcw : 0 ≤ cw) (hmw : 0 ≤ mw) :
    (autoFill = false → marqueeMultiplier autoFill cw mw = 1) ∧
    (autoFill = true → 0 < cw → 0 < mw → mw < cw →
      marqueeMultiplier autoFill cw mw = ⌈cw / mw⌉) ∧
    (autoFill = true → (cw = 0 ∨ mw = 0 ∨ cw ≤ mw) →
      marqueeMultiplier autoFill cw mw = 1) ∧
    1 ≤ marqueeMultiplier autoFill cw mw := by
  unfold marqueeMultiplier
  refine ⟨?_, ?_, ?_, ?_⟩
  · intro h
    simp [h]
  · intro h hc hm hlt
    rw [if_pos ⟨h, ne_of_gt hc, ne_of_gt hm⟩, if_pos hlt]
  · intro h hcase
    rcases hcase with h0 | h0 | hle
    · simp [h0]
    · simp [h0]
    · split_ifs with h1 h2
      · exact absurd h2 (not_lt.mpr hle)
      · rfl
      · rfl
  · split_ifs with h1 h2
    · have hm : 0 < mw := lt_of_le_of_ne hmw (Ne.symm h1.2.2)
      have : (1 : ℚ) < cw / mw := (one_lt_div hm).mpr h2
      exact le_of_lt (Int.lt_ceil.mpr (by exact_mod_cast this))
    · exact le_refl 1
    · exact le_refl 1

/-- Witness for C1 at `autoFill = true`, container extent `3`, content
extent `2`. -/
theorem marqueeMultiplier_spec_witness :
    (0 : ℚ) ≤ 3 ∧ (0 : ℚ) ≤ 2 ∧
    ((true = false → marqueeMultiplier true 3 2 = 1) ∧
     (true = true → (0 : ℚ) < 3 → (0 : ℚ) < 2 → (2 : ℚ) < 3 →
       marqueeMultiplier true 3 2 = ⌈(3 : ℚ) / 2⌉) ∧
     (true = true → ((3 : ℚ) = 0 ∨ (2 : ℚ) = 0 ∨ (3 : ℚ) ≤ 2) →
       marqueeMultiplier true 3 2 = 1) ∧
     1 ≤ marqueeMultiplier true 3 2) :=
  ⟨by norm_num, by norm_num,
    marqueeMultiplier_spec true 3 2 (by norm_num) (by norm_num)⟩

/-- C2: for positive speed, the derived duration is
`(contentExtent * multiplier) / speed` when `autoFill` is on, and
`max(containerExtent, contentExtent) / speed` when it is off. -/
theorem duration_spec (cw mw : ℚ) (mult : ℤ) (speed : ℚ) (_hs : 0 < speed) :
    duration true cw mw mult speed = (mw * (mult : ℚ)) / speed ∧
    duration false cw mw mult speed = max cw mw / speed := by
  have hd : duration false cw mw mult speed =
      if mw < cw then cw / speed else mw / speed := rfl
  constructor
  · rfl
  · rw [hd]
    split_ifs with h
    · rw [max_eq_left (le_of_lt h)]
    · rw [max_eq_right (not_lt.mp h)]

/-- Witness for C2 at container `4`, content `2`, multiplier `1`,
speed `2`. -/
theorem duration_spec_witness :
    (0 : ℚ) < 2 ∧
    (duration true 4 2 1 2 = (2 * ((1 : ℤ) : ℚ)) / 2 ∧
     duration false 4 2 1 2 = max (4 : ℚ) 2 / 2) :=
  ⟨by norm_num, duration_spec 4 2 1 2 (by norm_num)⟩

/-- C9: for positive speed and multiplier at least `1` (the stored-state
invariant), the duration is strictly positive whenever the relevant extent is
positive (the content extent under `autoFill`, the larger extent otherwise),
and doubling the speed halves the duration. -/
theorem duration_pos_and_inverse (cw mw : ℚ) (mult : ℤ) (speed : ℚ)
    (hs : 0 < speed) (hmult : 1 ≤ mult) :
    (0 < mw → 0 < duration true cw mw mult speed) ∧
    (0 < max cw mw → 0 < duration false cw mw mult speed) ∧
    duration true cw mw mult (2 * speed) = duration true cw mw mult speed / 2 ∧
    duration false cw mw mult (2 * speed) = duration false cw mw mult speed / 2 := by
  have hmq : (1 : ℚ) ≤ (mult : ℚ) := by exact_mod_cast hmult
  have hdt : ∀ sp : ℚ, duration true cw mw mult sp = (mw * (mult : ℚ)) / sp :=
    fun _ => rfl
  have hdf : ∀ sp : ℚ, duration false cw mw mult sp =
      if mw < cw then cw / sp else mw / sp := fun _ => rfl
  refine ⟨?_, ?_, ?_, ?_⟩
  · intro hmw
    rw [hdt]
    exact div_pos (mul_pos hmw (lt_of_lt_of_le one_pos hmq)) hs
  · intro hmax
    rw [hdf]
    split_ifs with h
    · have hc : 0 < cw := by
        rcases lt_max_iff.mp hmax with h1 | h1
        · exact h1
        · exact lt_trans h1 h
      exact div_pos hc hs
    · have hm : 0 < mw := by
        rcases lt_max_iff.mp hmax with h1 | h1
        · exact lt_of_lt_of_le h1 (not_lt.mp h)
        · exact h1
      exact div_pos hm hs
  · rw [hdt, hdt, div_div, mul_comm (2 : ℚ) speed]
  · rw [hdf, hdf]
    split_ifs with h
    · rw [div_div, mul_comm (2 : ℚ) speed]
    · rw [div_div, mul_comm (2 : ℚ) speed]

/-- Witness for C9 at container `4`, content `2`, multiplier `1`,
speed `2`. -/
theorem duration_pos_and_inverse_witness :
    (0 : ℚ) < 2 ∧ (1 : ℤ) ≤ 1 ∧
    ((0 < (2 : ℚ) → 0 < duration true 4 2 1 2) ∧
     (0 < max (4 : ℚ) 2 → 0 < duration false 4 2 1 2) ∧
     duration true 4 2 1 (2 * 2) = duration true 4 2 1 2 / 2 ∧
     duration false 4 2 1 (2 * 2) = duration false 4 2 1 2 / 2) :=
  ⟨by norm_num, le_refl 1, duration_pos_and_inverse 4 2 1 2 (by norm_num) (le_refl 1)⟩

/-- C8: with `play = false` every derived play-state style parameter is
`"paused"` in both variants, regardless of `pauseOnHover`, `pauseOnClick`
and `draggable`. -/
theorem play_false_forces_paused (pauseOnHover pauseOnClick draggable : Bool) :
    playValue false = "paused" ∧
    pauseOnHoverValue false pauseOnHover = "paused" ∧
    pauseOnClickValueV1 false pauseOnHover pauseOnClick = "paused" ∧
    pauseOnClickValueV2 false pauseOnHover pauseOnClick draggable = "paused" := by
  refine ⟨rfl, rfl, rfl, rfl⟩

/-- C10: `--pause-on-click` is `"paused"` exactly when playback is off, or
`pauseOnClick` is set, or `pauseOnHover` is set without `pauseOnClick`, or
(draggable variant only) `draggable` is set; in particular the draggable
variant with `draggable = true`, `play = true` and `pauseOnClick = false` is
paused. -/
theorem pauseOnClick_semantics (play pauseOnHover pauseOnClick draggable : Bool) :
    (pauseOnClickValueV1 play pauseOnHover pauseOnClick = "paused" ↔
      (play = false ∨ pauseOnClick = true ∨
        (pauseOnHover = true ∧ pauseOnClick = false))) ∧
    (pauseOnClickValueV2 play pauseOnHover pauseOnClick draggable = "paused" ↔
      (play = false ∨ pauseOnClick = true ∨
        (pauseOnHover = true ∧ pauseOnClick = false) ∨ draggable = true)) ∧
    pauseOnClickValueV2 true pauseOnHover false true = "paused" := by
  revert play pauseOnHover pauseOnClick draggable
  decide

/-- The rational `5 / 2`, written in lowest terms so that its numerator and
denominator reduce definitionally. -/
def fiveHalves : ℚ := ⟨5, 2, by decide, by decide⟩

/-- C3 counterexample: at the finite non-negative input `5/2` (which the guard
`Number.isFinite(multiplier) && multiplier >= 0` lets through) the `Array`
constructor throws a `RangeError` (`none`) instead of rendering copies, so
`multiplyChildren` does not render `max(0, n)` copies and does not avoid
throwing for every numeric input. -/
theorem multiplyChildren_throws_on_nonintegral :
    fiveHalves = 5 / 2 ∧ multiplyChildren (JSNum.finite fiveHalves) = none := by
  constructor
  · rw [← Rat.num_div_den fiveHalves]
    norm_num [fiveHalves]
  · decide

/-- C3 amended: `multiplyChildren` renders `0` copies (without throwing) for
every non-finite input and for every finite negative input, and renders
exactly `n` copies for a finite input that is a non-negative integer `n`
below `2 ^ 32`; a finite non-negative input that is not such an integer makes
the `Array` constructor throw. -/
theorem multiplyChildren_amended (m : JSNum) :
    (m.isFinite = false → multiplyChildren m = some 0) ∧
    (∀ q : ℚ, m = JSNum.finite q → q < 0 → multiplyChildren m = some 0) ∧
    (∀ q : ℚ, m = JSNum.finite q → q.den = 1 → 0 ≤ q.num → q.num < 2 ^ 32 →
      multiplyChildren m = some q.num.toNat) := by
  refine ⟨?_, ?_, ?_⟩
  · intro h
    cases m with
    | nan => rfl
    | posInf => rfl
    | negInf => rfl
    | finite q => simp [JSNum.isFinite] at h
  · rintro q rfl hq
    have hg : (JSNum.finite q).geZero = false := by
      simp [JSNum.geZero, not_le.mpr hq]
    have hsel : (if (JSNum.finite q).isFinite && (JSNum.finite q).geZero
        then JSNum.finite q else JSNum.finite 0) = JSNum.finite 0 := by
      rw [hg]
      rfl
    unfold multiplyChildren
    rw [hsel]
    decide
  · rintro q rfl hden hnum hlt
    have hq : 0 ≤ q := Rat.num_nonneg.mp hnum
    have hg : (JSNum.finite q).geZero = true := by
      simp [JSNum.geZero, hq]
    have hsel : (if (JSNum.finite q).isFinite && (JSNum.finite q).geZero
        then JSNum.finite q else JSNum.finite 0) = JSNum.finite q := by
      rw [hg]
      rfl
    unfold multiplyChildren
    rw [hsel]
    exact if_pos ⟨hden, hnum, hlt⟩

/-- Witness for the amended C3 at the integer input `3`: three copies are
rendered. -/
theorem multiplyChildren_amended_witness :
    (3 : ℚ).den = 1 ∧ 0 ≤ (3 : ℚ).num ∧ (3 : ℚ).num < 2 ^ 32 ∧
    multiplyChildren (JSNum.finite 3) = some (3 : ℚ).num.toNat :=
  ⟨by decide, by decide, by decide,
    (multiplyChildren_amended (JSNum.finite 3)).2.2 3 rfl (by decide) (by decide)
      (by decide)⟩

/-- C5: with `darkModeGradient = {enabled: true, color: c, gradientWidth: w}`
the gradient style uses `c` and `w`, overriding the base `gradientColor` and
`gradientWidth`; with `enabled: false` or a null `darkModeGradient` the base
values are used unchanged. -/
theorem gradientStyle_spec (gc : String) (gw : CSSWidth) (c : String) (w : ℚ)
    (ow : Option ℚ) :
    gradientStyle gc gw (some ⟨true, c, some w⟩) = (some c, CSSWidth.num w) ∧
    gradientStyle gc gw (some ⟨false, c, ow⟩) = (some gc, gw) ∧
    gradientStyle gc gw none = (some gc, gw) :=
  ⟨rfl, rfl, rfl⟩

/-- C6: while a drag is active, a move event stores
`clientPos − dragStartPos` (negated for the `up` direction) as the current
drag offset, leaves the captured animation position unchanged, and the next
animation frame positions both redundant tracks at
`capturedAnimationPosition + currentOffset`. -/
theorem handleDragMove_spec (direction : Direction) (s : DragState)
    (e : PointerEventPos) (h : s.isDragging = true) :
    (handleDragMove direction s e).currentDragOffset =
      (if direction = Direction.up then -(clientPos direction e - s.dragStartPos)
       else clientPos direction e - s.dragStartPos) ∧
    (handleDragMove direction s e).animationPosition = s.animationPosition ∧
    animateDragFrame s.animationPosition (handleDragMove direction s e) =
      (s.animationPosition + (handleDragMove direction s e).currentDragOffset,
       s.animationPosition + (handleDragMove direction s e).currentDragOffset) := by
  unfold handleDragMove
  rw [h]
  simp [animateDragFrame]

/-- Witness for C6: a drag started (direction `left`) at pointer coordinate
`10` with captured animation position `100`, followed by a move to coordinate
`60` (a `+50` px move), yields a drag offset of `50` and a rendered
translation of `150` px on both tracks. -/
theorem handleDragMove_spec_witness :
    (handleDragStart true Direction.left 100 ⟨false, 0, 0, 0⟩ ⟨10, 25⟩).isDragging
      = true ∧
    (handleDragMove Direction.left
        (handleDragStart true Direction.left 100 ⟨false, 0, 0, 0⟩ ⟨10, 25⟩)
        ⟨60, 25⟩).currentDragOffset = 50 ∧
    animateDragFrame
        (handleDragStart true Direction.left 100 ⟨false, 0, 0, 0⟩
          ⟨10, 25⟩).animationPosition
        (handleDragMove Direction.left
          (handleDragStart true Direction.left 100 ⟨false, 0, 0, 0⟩ ⟨10, 25⟩)
          ⟨60, 25⟩) = (150, 150) := by
  have h := handleDragMove_spec Direction.left
    (handleDragStart true Direction.left 100 ⟨false, 0, 0, 0⟩ ⟨10, 25⟩)
    ⟨60, 25⟩ rfl
  refine ⟨rfl, ?_, ?_⟩
  · rw [h.1, if_neg (by decide : ¬ Direction.left = Direction.up)]
    norm_num [clientPos, handleDragStart]
  · rw [h.2.2, h.1, if_neg (by decide : ¬ Direction.left = Direction.up)]
    norm_num [clientPos, handleDragStart]

/-- Invocations of `onMount` contributed by the renders after the first, for
an effect whose dependency array is `[onMount]`: the effect re-runs at every
render whose `onMount` prop differs (by identity) from the previous render's,
and the callback fires when it is a function (`some`).  Function identities
are modelled by `ℕ`; `none` models an absent (`undefined`) prop. -/
def onMountCallsAux (prev : Option ℕ) : List (Option ℕ) → ℕ
  | [] => 0
  | p :: rest => (if p ≠ prev ∧ p.isSome then 1 else 0) + onMountCallsAux p rest

/-- Total `onMount` invocations over an instance lifetime in the base
variant, whose effect is `useEffect(..., [onMount])`: it runs after the first
render and after every render where the prop's identity changed.  The list is
the value of the `onMount` prop at each successive render. -/
def onMountCallsV1 : List (Option ℕ) → ℕ
  | [] => 0
  | p :: rest => (if p.isSome then 1 else 0) + onMountCallsAux p rest

/-- Total `onMount` invocations in the draggable variant, whose effect is
`useEffect(..., [])`: it runs only after the first render. -/
def onMountCallsV2 : List (Option ℕ) → ℕ
  | [] => 0
  | p :: _ => if p.isSome then 1 else 0

/-- Helper: the `[onMount]`-effect contributes no extra invocation over
renders whose prop never changes identity. -/
theorem onMountCallsAux_stable (f : ℕ) (rest : List (Option ℕ))
    (h : ∀ x ∈ rest, x = some f) : onMountCallsAux (some f) rest = 0 := by
  induction rest with
  | nil => rfl
  | cons p rest ih =>
      have hp : p = some f := h p (List.mem_cons_self p rest)
      subst hp
      rw [onMountCallsAux, if_neg (by simp), Nat.zero_add]
      exact ih (fun x hx => h x (List.mem_cons_of_mem _ hx))

/-- C4 counterexample: a base-variant instance that renders twice with two
distinct `onMount` function identities (e.g. a fresh inline closure per
render) invokes the callback twice over its lifetime, not exactly once. -/
theorem onMountCallsV1_twice :
    onMountCallsV1 [some 0, some 1] = 2 := by decide

/-- C4 amended: in the draggable variant, a supplied `onMount` is invoked
exactly once over the instance lifetime; in the base variant it is invoked
once after the first render plus once per render at which the prop's function
identity changed, hence exactly once only when the identity is stable across
all renders. -/
theorem onMount_amended (trace : List (Option ℕ)) (f : ℕ)
    (h : trace.head? = some (some f)) :
    onMountCallsV2 trace = 1 ∧
    ((∀ x ∈ trace, x = some f) → onMountCallsV1 trace = 1) := by
  cases trace with
  | nil => simp at h
  | cons p rest =>
      have hp : p = some f := by simpa using h
      subst hp
      constructor
      · simp [onMountCallsV2]
      · intro hstable
        rw [onMountCallsV1,
          onMountCallsAux_stable f rest
            (fun x hx => hstable x (List.mem_cons_of_mem _ hx))]
        simp

/-- Witness for the amended C4: a two-render lifetime with a stable supplied
callback invokes it exactly once in both variants. -/
theorem onMount_amended_witness :
    ([some 5, some 5] : List (Option ℕ)).head? = some (some 5) ∧
    (onMountCallsV2 [some 5, some 5] = 1 ∧
     ((∀ x ∈ ([some 5, some 5] : List (Option ℕ)), x = some 5) →
       onMountCallsV1 [some 5, some 5] = 1)) :=
  ⟨rfl, onMount_amended [some 5, some 5] 5 rfl⟩

/-- Numeric value of a list of decimal digit characters, most significant
first. -/
def digitsToNat (ds : List Char) : ℕ :=
  ds.foldl (fun a c => 10 * a + (c.toNat - 48)) 0

/-- The exponent part of a JavaScript number literal, as consumed by
`parseFloat` after an `e`/`E`: an optional sign and a digit run; an empty
digit run contributes no exponent (the `e` suffix is not part of the longest
valid prefix). -/
def parseExp (cs : List Char) : ℤ :=
  let esign : ℤ :=
    match cs with
    | '-' :: _ => -1
    | _ => 1
  let cs1 : List Char :=
    match cs with
    | '+' :: r => r
    | '-' :: r => r
    | _ => cs
  let ds := cs1.takeWhile (fun c => c.isDigit)
  if ds = [] then 0 else esign * (digitsToNat ds : ℤ)

/-- JavaScript `parseFloat`: skips leading whitespace, then parses the longest
prefix that is a signed decimal literal (`Infinity`, or digits with an
optional fraction and exponent), returning `NaN` when no prefix parses.  The
value is exact (`ℚ`); IEEE-754 rounding and overflow to infinity are not
modelled, which does not affect which branch is taken. -/
def parseFloat (cs : List Char) : JSNum :=
  let cs1 := cs.dropWhile (fun c => c.isWhitespace)
  let sign : ℚ :=
    match cs1 with
    | '-' :: _ => -1
    | _ => 1
  let cs2 : List Char :=
    match cs1 with
    | '+' :: r => r
    | '-' :: r => r
    | _ => cs1
  if "Infinity".toList.isPrefixOf cs2 then
    (if sign = 1 then JSNum.posInf else JSNum.negInf)
  else
    let intPart := cs2.takeWhile (fun c => c.isDigit)
    let rest1 := cs2.dropWhile (fun c => c.isDigit)
    let fracPart : List Char :=
      match rest1 with
    | '.' :: r => r.takeWhile (fun c => c.isDigit)
    | _ => []
    let rest2 : List Char :=
      match rest1 with
    | '.' :: r => r.dropWhile (fun c => c.isDigit)
    | _ => rest1
    if intPart = [] ∧ fracPart = [] then JSNum.nan
    else
      let mantissa : ℚ :=
        (digitsToNat intPart : ℚ) +
          (digitsToNat fracPart : ℚ) / (10 : ℚ) ^ fracPart.length
      let exp : ℤ :=
        match rest2 with
        | 'e' :: r => parseExp r
        | 'E' :: r => parseExp r
        | _ => 0
      JSNum.finite (sign * mantissa * (10 : ℚ) ^ exp)

/-- JavaScript `String.prototype.split(", ")`: splits at every non-overlapping
occurrence of the two-character separator, scanning left to right. -/
def splitCS : List Char → List (List Char)
  | [] => [[]]
  | ',' :: ' ' :: rest => [] :: splitCS rest
  | c :: rest =>
      match splitCS rest with
      | [] => [[c]]
      | g :: gs => (c :: g) :: gs

/-- Position of the leftmost occurrence of the literal `matrix(` in the
string, returning the suffix that follows it. -/
def afterMatrixOpen : List Char → Option (List Char)
  | [] => none
  | c :: cs =>
      if "matrix(".toList.isPrefixOf (c :: cs) then some ((c :: cs).drop 7)
      else afterMatrixOpen cs

/-- Index of the last `)` in the string, if any. -/
def lastParenIdx (cs : List Char) : Option ℕ :=
  ((cs.enum.filter (fun p => p.2 == ')')).map (fun p => p.1)).getLast?

/-- The capture group of the JavaScript regular-expression match
`transform.match(/matrix\((.+)\)/)`: the leftmost match starts at the first
occurrence of `matrix(`, and the greedy `(.+)` extends to the last `)` of the
string provided it captures at least one character.  When the first
occurrence admits no such close paren, no later occurrence can either, so the
whole match fails. -/
def matrixCapture (cs : List Char) : Option (List Char) :=
  match afterMatrixOpen cs with
  | none => none
  | some rest =>
      match lastParenIdx rest with
      | some j => if 1 ≤ j then some (rest.take j) else none
      | none => none

/-- Outcome of reading the computed `transform` style of the first marquee
track inside the `try` block: either the read threw, or it produced a
transform string. -/
inductive StyleRead where
  | threw : StyleRead
  | value : String → StyleRead

/-- JavaScript `parseFloat(values[i])` where `values[i]` may be `undefined`
(out of range): `parseFloat(undefined)` is `NaN`. -/
def parseFloatAt (values : List (List Char)) (i : ℕ) : JSNum :=
  match values.get? i with
  | some v => parseFloat v
  | none => JSNum.nan

/-- `getCurrentTranslation` of the draggable variant: `0` when the first
track ref is unset (`none`), when the style read throws, when the transform
is `none` or the identity matrix, or when the string does not match the
matrix pattern; otherwise `parseFloat` of the fifth comma-space-separated
entry of the capture (the matrix translateX component).  The function is
total: every input yields a number. -/
def getCurrentTranslation (firstMarquee : Option StyleRead) : JSNum :=
  match firstMarquee with
  | none => JSNum.finite 0
  | some StyleRead.threw => JSNum.finite 0
  | some (StyleRead.value transform) =>
      if transform = "none" ∨ transform = "matrix(1, 0, 0, 1, 0, 0)" then
        JSNum.finite 0
      else
        match matrixCapture transform.toList with
        | some capture => parseFloatAt (splitCS capture) 4
        | none => JSNum.finite 0

/-- C7: `getCurrentTranslation` always returns a number and never propagates
an exception: it returns `0` for an absent element, a throwing style read, a
`none` or identity-matrix transform, and a non-matching transform string; for
a matching transform it returns the parsed translateX component (the fifth
entry of the matrix capture). -/
theorem getCurrentTranslation_spec (input : Option StyleRead) :
    (input = none → getCurrentTranslation input = JSNum.finite 0) ∧
    (input = some StyleRead.threw → getCurrentTranslation input = JSNum.finite 0) ∧
    (∀ t, input = some (StyleRead.value t) →
      (t = "none" ∨ t = "matrix(1, 0, 0, 1, 0, 0)") →
      getCurrentTranslation input = JSNum.finite 0) ∧
    (∀ t, input = some (StyleRead.value t) → matrixCapture t.toList = none →
      getCurrentTranslation input = JSNum.finite 0) ∧
    (∀ t cap, input = some (StyleRead.value t) → t ≠ "none" →
      t ≠ "matrix(1, 0, 0, 1, 0, 0)" → matrixCapture t.toList = some cap →
      getCurrentTranslation input = parseFloatAt (splitCS cap) 4) := by
  refine ⟨?_, ?_, ?_, ?_, ?_⟩
  · rintro rfl
    rfl
  · rintro rfl
    rfl
  · rintro t rfl ht
    simp only [getCurrentTranslation]
    rw [if_pos ht]
  · rintro t rfl hm
    by_cases h0 : t = "none" ∨ t = "matrix(1, 0, 0, 1, 0, 0)"
    · simp only [getCurrentTranslation]
      rw [if_pos h0]
    · simp only [getCurrentTranslation]
      rw [if_neg h0, hm]
  · rintro t cap rfl h1 h2 hm
    simp only [getCurrentTranslation]
    rw [if_neg (by push_neg; exact ⟨h1, h2⟩), hm]

/-- Witness for C7: the transform string `matrix(1, 0, 0, 1, 42.5, 0)`
matches the pattern, its capture splits into six entries, and the returned
value is the parsed translateX component `42.5 = 85/2`. -/
theorem getCurrentTranslation_spec_witness :
    ("matrix(1, 0, 0, 1, 42.5, 0)" : String) ≠ "none" ∧
    ("matrix(1, 0, 0, 1, 42.5, 0)" : String) ≠ "matrix(1, 0, 0, 1, 0, 0)" ∧
    matrixCapture ("matrix(1, 0, 0, 1, 42.5, 0)" : String).toList
      = some ("1, 0, 0, 1, 42.5, 0" : String).toList ∧
    getCurrentTranslation (some (StyleRead.value "matrix(1, 0, 0, 1, 42.5, 0)"))
      = parseFloatAt (splitCS ("1, 0, 0, 1, 42.5, 0" : String).toList) 4 ∧
    parseFloatAt (splitCS ("1, 0, 0, 1, 42.5, 0" : String).toList) 4
      = JSNum.finite (85 / 2) := by
  refine ⟨by decide, by decide, by decide, ?_, ?_⟩
  · exact (getCurrentTranslation_spec
      (some (StyleRead.value "matrix(1, 0, 0, 1, 42.5, 0)"))).2.2.2.2
      "matrix(1, 0, 0, 1, 42.5, 0)" ("1, 0, 0, 1, 42.5, 0" : String).toList
      rfl (by decide) (by decide) (by decide)
  · show JSNum.finite ((1 : ℚ) * (((42 : ℕ) : ℚ) + ((5 : ℕ) : ℚ) / (10 : ℚ) ^ (1 : ℕ))
        * (10 : ℚ) ^ (0 : ℤ)) = JSNum.finite (85 / 2)
    norm_num
